import Mathlib

/-!
Verification development for the NuxtShip template repository.

The definitions below are shallow embeddings of the TypeScript/shell sources:
  * `deployment/scripts/cleanup-template.ts` (current orchestrator),
  * the older orchestrator variants kept in the repository
    (`src/unnamed/part_004`, `src/unnamed/part_005`),
  * `deployment/scripts/setup-env.ts`,
  * `server/middleware/auth-context.ts` and the `SET SESSION` variant
    (`src/unnamed/part_006`).

JavaScript strings are modelled as Lean `String`/`List Char`; JavaScript
objects holding the `scripts` map of `package.json` are modelled as ordered
association lists; filesystem files are modelled as `Option String`
(`none` = the file is missing or unreadable).  Case mapping and the
whitespace classes are modelled on the ASCII range, which is where all the
repository's fixed string constants live.
-/

namespace NuxtShip

/-- The single-quote character, written via its code point. -/
def sq : Char := Char.ofNat 39

/-- ASCII whitespace, the fragment of the JS `\s` class / `trim()` class
exercised by the repository's constants. -/
def wsChar (c : Char) : Bool :=
  c = ' ' || c = '\t' || c = '\n' || c = '\r' || c = Char.ofNat 11 || c = Char.ofNat 12

/-- JS `String.prototype.trim`: drop whitespace at both ends. -/
def trimL (l : List Char) : List Char :=
  ((l.dropWhile wsChar).reverse.dropWhile wsChar).reverse

/-- Is `pat` a prefix of `l`? -/
def prefixL : List Char → List Char → Bool
  | [], _ => true
  | _ :: _, [] => false
  | a :: as, b :: bs => a = b && prefixL as bs

/-- Split a character list at newline characters (used to model the
multiline anchors of `/^KEY=(.*)$/m`). -/
def splitLinesAux (cur : List Char) : List Char → List (List Char)
  | [] => [cur.reverse]
  | c :: r => if c = '\n' then cur.reverse :: splitLinesAux [] r else splitLinesAux (c :: cur) r

/-- All lines of an environment file. -/
def splitLines (l : List Char) : List (List Char) :=
  splitLinesAux [] l

/-- Models `envContent.match(/^KEY=(.*)$/m)?.[1]?.trim()`: the first line starting
with `KEY=`, with the part after `=` trimmed. -/
def envValueL (key : List Char) (env : List Char) : Option (List Char) :=
  ((splitLines env).find? fun l => prefixL (key ++ ['=']) l).map
    fun l => trimL (l.drop (key.length + 1))

/-- The `PROJECT_NAME` extraction used by `updatePackageInfo`
(`cleanup-template.ts` lines 98-106). -/
def findProjectName (env : String) : Option String :=
  (envValueL "PROJECT_NAME".data env.data).map fun l => String.mk l

/-- Auxiliary for `/\s+/g → '-'`: `prevWs` records whether the previous
character belonged to a whitespace run already replaced by a hyphen. -/
def collapseWsAux : Bool → List Char → List Char
  | _, [] => []
  | prevWs, c :: r =>
    if wsChar c then
      if prevWs then collapseWsAux true r else '-' :: collapseWsAux true r
    else c :: collapseWsAux false r

/-- Models `replace(/\s+/g, '-')`: each maximal whitespace run becomes one hyphen. -/
def collapseWs (l : List Char) : List Char :=
  collapseWsAux false l

/-- The character class `[a-z0-9-]` kept by the final strip. -/
def allowedChar (c : Char) : Bool :=
  ('a' ≤ c && c ≤ 'z') || ('0' ≤ c && c ≤ '9') || c = '-'

/-- Models `projectName.toLowerCase().replace(/\s+/g, '-').replace(/[^a-z0-9-]/g, '')`
(`cleanup-template.ts` line 113). -/
def npmName (s : String) : String :=
  String.mk ((collapseWs (s.data.map Char.toLower)).filter allowedChar)

/-!
## JavaScript object model for the manifest `scripts` map

A JS object is an ordered map with unique keys.  `jsGet` is property read,
`jsSet` is property assignment (update in place, or append for a fresh key),
`jsDelete` is the `delete` operator, and `jsTruthy` is the truthiness test
`if (scripts[cmd])` — for string values only the empty string is falsy.
-/

/-- The ordered string-to-string map behind `packageJson.scripts`. -/
abbrev Obj := List (String × String)

/-- Property read `o[k]`. -/
def jsGet : Obj → String → Option String
  | [], _ => none
  | kv :: rest, k => if kv.1 = k then some kv.2 else jsGet rest k

/-- Property assignment `o[k] = v`. -/
def jsSet : Obj → String → String → Obj
  | [], k, v => [(k, v)]
  | kv :: rest, k, v => if kv.1 = k then (k, v) :: rest else kv :: jsSet rest k v

/-- The `delete o[k]` operator. -/
def jsDelete : Obj → String → Obj
  | [], _ => []
  | kv :: rest, k => if kv.1 = k then jsDelete rest k else kv :: jsDelete rest k

/-- Truthiness of `o[k]`: present with a non-empty string value. -/
def jsTruthy (o : Obj) (k : String) : Bool :=
  match jsGet o k with
  | some v => v ≠ ""
  | none => false

/-!
## The package manifest

Only the fields the cleanup scripts read or write are modelled; every other
manifest field is untouched by all the operations below.
-/

/-- The `package.json` fields touched by the cleanup scripts. -/
structure PackageJson where
  name : String
  version : String
  description : Option String
  scripts : Obj
deriving DecidableEq, Repr

/-!
## Current orchestrator: `deployment/scripts/cleanup-template.ts`
-/

/-- The fixed removal list of `cleanupTemplateCommands`
(`cleanup-template.ts` lines 41-51). -/
def commandsToRemove : List String :=
  ["init", "setup:env", "setup:full", "setup:certs", "setup:init-steps",
   "setup:containers", "setup:database", "setup:auth", "setup:auth:provision"]

/-- The fixed rename map of `cleanupTemplateCommands`
(`cleanup-template.ts` lines 62-68), in `Object.entries` order. -/
def renamePairs : List (String × String) :=
  [("containers:start", "infra:start"), ("containers:stop", "infra:stop"),
   ("containers:restart", "infra:restart"), ("containers:logs", "infra:logs"),
   ("containers:status", "infra:status")]

/-- Models `if (scripts[cmd]) { delete scripts[cmd] }` (lines 54-59). -/
def removeStep (o : Obj) (cmd : String) : Obj :=
  match jsGet o cmd with
  | some v => if v ≠ "" then jsDelete o cmd else o
  | none => o

/-- Models `if (scripts[oldName]) { scripts[newName] = scripts[oldName]; delete scripts[oldName] }`
(lines 70-75). -/
def renameStep (o : Obj) (pr : String × String) : Obj :=
  match jsGet o pr.1 with
  | some v => if v ≠ "" then jsDelete (jsSet o pr.2 v) pr.1 else o
  | none => o

/-- The `cleanupTemplateCommands` step of the current orchestrator
(`cleanup-template.ts` lines 27-90): remove the template-only commands,
then apply the renames.  The manifest read/write is the identity on the
structure apart from `scripts`. -/
def cleanupTemplateCommandsCur (p : PackageJson) : PackageJson :=
  { p with scripts := renamePairs.foldl renameStep (commandsToRemove.foldl removeStep p.scripts) }

/-- The `updatePackageInfo` step (`cleanup-template.ts` lines 92-131): if the
environment file is readable and declares `PROJECT_NAME`, rewrite `name`
from it, reset `version` to `0.1.0`, and drop `description`; any missing
piece makes the whole step a caught no-op. -/
def updatePackageInfo (envFile : Option String) (p : PackageJson) : PackageJson :=
  match envFile with
  | none => p
  | some env =>
    match findProjectName env with
    | none => p
    | some projectName =>
      { p with name := npmName projectName, version := "0.1.0", description := none }

/-- The `main` entry of the current orchestrator (`cleanup-template.ts` lines
133-149): skip `cleanupTemplateCommands` when the version-control status
query reported pending changes, then run `updatePackageInfo`
unconditionally.  `hasChanges` is the result of `hasUncommittedChanges`
(lines 7-25); a `none` manifest models an unreadable/unparsable
`package.json`, on which both steps are caught no-ops. -/
def mainCur (hasChanges : Bool) (envFile : Option String) (pkg : Option PackageJson) :
    Option PackageJson :=
  let pkg1 := if hasChanges then pkg else pkg.map cleanupTemplateCommandsCur
  pkg1.map (updatePackageInfo envFile)

/-!
## Guarded orchestrator variant: `src/unnamed/part_005`, `cleanupTemplate`

This variant checks the template marker before any mutation: on
`name === 'nuxtship'` it returns before reaching the write.  Its removal
list lacks `setup:auth:provision`, and it never reads or writes the README.
-/

/-- Removal list of the `part_005` variant (lines 26-35). -/
def commandsToRemove5 : List String :=
  ["init", "setup:env", "setup:full", "setup:certs", "setup:init-steps",
   "setup:containers", "setup:database", "setup:auth"]

/-- The `cleanupTemplate` run of `src/unnamed/part_005` (lines 6-85). -/
def cleanupTemplate5 (p : PackageJson) : PackageJson :=
  if p.name = "nuxtship" then p
  else
    { p with scripts := renamePairs.foldl renameStep (commandsToRemove5.foldl removeStep p.scripts) }

/-- A whole run of the `part_005` script over the manifest file and the
README file: only the manifest is ever read or written, and a manifest that
fails to parse is a caught no-op. -/
def run5 (st : Option PackageJson × Option String) : Option PackageJson × Option String :=
  (st.1.map cleanupTemplate5, st.2)

/-!
## Environment Initializer: `deployment/scripts/setup-env.ts`
-/

/-- The two files `setup-env.ts` looks at, as contents
(`none` = the file does not exist). -/
structure EnvFs where
  envFile : Option String
  envExample : Option String
deriving DecidableEq, Repr

/-- The `main` entry of `setup-env.ts` (lines 6-53): result state and process exit
code.  An existing `.env` returns immediately with code 0; a missing
`.env.example` exits 1 without creating anything; otherwise `.env` is
created byte-for-byte from `.env.example` and the process exits 1 as a
deliberate hard stop. -/
def setupEnvMain (fs : EnvFs) : EnvFs × Nat :=
  match fs.envFile with
  | some _ => (fs, 0)
  | none =>
    match fs.envExample with
    | none => (fs, 1)
    | some c => ({ fs with envFile := some c }, 1)

/-!
## Auth-Context Bridge: `server/middleware/auth-context.ts`

`getAuthSession` (the `getUserSession` wrapper of `server/utils/auth.ts`,
lines 14-21) catches every resolution failure and returns `null`, so the
middleware's `session` value is simply an optional input.  The database
call and the context writes are recorded in the result; every remaining
failure path is caught by the middleware's own `try`/`catch`, so no error
escapes.
-/

/-- The only claim field the middleware consumes. -/
structure UserInfo where
  sub : Option String
deriving DecidableEq, Repr

/-- The session object returned by the authentication subsystem. -/
structure AuthSession where
  userInfo : Option UserInfo
deriving DecidableEq, Repr

/-- An inbound request as seen by the middleware: the raw URL (possibly
absent) and the resolved session (`none` = no valid session). -/
structure AuthEvent where
  url : Option String
  session : Option AuthSession
deriving DecidableEq, Repr

/-- A database command issued by the middleware. -/
inductive DbCmd where
  | setLocalUserId (uid : String)
deriving DecidableEq, Repr

/-- Observable outcome of one middleware run. -/
structure AuthResult where
  contextUserId : Option String
  contextUser : Option UserInfo
  dbCommands : List DbCmd
  raised : Bool
deriving DecidableEq, Repr

/-- The untouched pass-through outcome. -/
def passResult : AuthResult :=
  { contextUserId := none, contextUser := none, dbCommands := [], raised := false }

/-- Models `event.node.req.url?.startsWith('/api/')`. -/
def startsWithApi (u : String) : Bool :=
  prefixL "/api/".data u.data

/-- The event handler of `server/middleware/auth-context.ts` (lines 12-35).
Requests outside the API prefix pass through; for the rest, a subject
identifier (when present and truthy) triggers the `SET LOCAL` database
command and the two context writes. -/
def authContextMiddleware (ev : AuthEvent) : AuthResult :=
  match ev.url with
  | none => passResult
  | some u =>
    if startsWithApi u then
      match ev.session with
      | none => passResult
      | some s =>
        match s.userInfo with
        | none => passResult
        | some ui =>
          match ui.sub with
          | none => passResult
          | some uid =>
            if uid = "" then passResult
            else
              { contextUserId := some uid, contextUser := some ui,
                dbCommands := [DbCmd.setLocalUserId uid], raised := false }
    else passResult

/-!
## `SET SESSION` statement building: `src/unnamed/part_006`, line 31

`userId.replace(/'/g, "''")` doubles every single quote before the
identifier is spliced into the raw SQL text.  `scanLit` is a scanner for
the body of a standard SQL string literal: a doubled quote is an escaped
quote, a lone quote terminates the literal.
-/

/-- Models `userId.replace(/'/g, "''")` on the character list. -/
def escapeQuotesL : List Char → List Char
  | [] => []
  | c :: r => if c = sq then sq :: sq :: escapeQuotesL r else c :: escapeQuotesL r

/-- The escaping applied to the subject identifier. -/
def escapeQuotes (s : String) : String :=
  String.mk (escapeQuotesL s.data)

/-- The raw SQL text built by the `part_006` middleware variant. -/
def setSessionSql (uid : String) : String :=
  "SET SESSION auth.user_id = " ++ String.mk [sq] ++ escapeQuotes uid ++ String.mk [sq]

/-- Scan the body of a SQL string literal after its opening quote: `''`
contributes one quote to the content, a single quote ends the literal and
returns the content together with the remaining input; running out of
input means the literal is unterminated. -/
def scanLit (acc : List Char) : List Char → Option (List Char × List Char)
  | [] => none
  | c :: r =>
    if c = sq then
      match r with
      | [] => some (acc, [])
      | c2 :: r2 => if c2 = sq then scanLit (acc ++ [sq]) r2 else some (acc, c2 :: r2)
    else scanLit (acc ++ [c]) r

/-- Parse one full SQL string literal: an opening quote then `scanLit`. -/
def parseSqlLit (l : List Char) : Option (List Char × List Char) :=
  match l with
  | [] => none
  | c :: r => if c = sq then scanLit [] r else none

/-!
## Full orchestrator variant: `src/unnamed/part_004`, second script

This variant renames the manifest first, checks the template marker
afterwards, and in the non-template branch rewrites the `init` command,
rewrites the README, deletes the license file, and schedules its own
deletion as the final step.  String substitution helpers below model the
JS regex replacements it performs on the README.
-/

/-- Index of the first occurrence of `pat` in a character list. -/
def idxOfSub (pat : List Char) : List Char → Option Nat
  | [] => if pat.isEmpty then some 0 else none
  | c :: r => if prefixL pat (c :: r) then some 0 else (idxOfSub pat r).map (· + 1)

/-- First position at which one of `enders` starts, or the length of the
list when none does (the `$` alternative of the lookahead). -/
def idxOfEnd (enders : List (List Char)) : List Char → Nat
  | [] => 0
  | c :: r => if enders.any (fun e => prefixL e (c :: r)) then 0 else idxOfEnd enders r + 1

/-- Models `readme.replace(/MARKER[\s\S]*?(?=END1|END2|$)/, '')`: drop from the
first occurrence of `marker` up to (excluding) the next ender or the end. -/
def removeSection (marker : List Char) (enders : List (List Char)) (s : List Char) : List Char :=
  match idxOfSub marker s with
  | none => s
  | some i =>
    let rest := (s.drop i).drop marker.length
    s.take i ++ rest.drop (idxOfEnd enders rest)

/-- Models `s.replace(pat, repl)` with a literal pattern: first occurrence only. -/
def replaceFirstSub (pat repl s : List Char) : List Char :=
  match idxOfSub pat s with
  | none => s
  | some i => s.take i ++ repl ++ s.drop (i + pat.length)

/-- Fuel-driven worker for the global literal replacement; the fuel is the
input length, and every step consumes at least one input character. -/
def replaceAllSubF (pat repl : List Char) : Nat → List Char → List Char
  | 0, l => l
  | _ + 1, [] => []
  | fuel + 1, c :: r =>
    if prefixL pat (c :: r) && !pat.isEmpty then
      repl ++ replaceAllSubF pat repl fuel ((c :: r).drop pat.length)
    else c :: replaceAllSubF pat repl fuel r

/-- Models `s.replace(/pat/g, repl)` with a literal pattern. -/
def replaceAllSub (pat repl s : List Char) : List Char :=
  replaceAllSubF pat repl s.length s

/-- Models `.replace(/['"]/g, '')` applied to the matched env values. -/
def stripQuotesCh (l : List Char) : List Char :=
  l.filter fun c => !(c = sq || c = '"')

/-- Models `value || fallback` after the optional chain: `none` and the empty
string both fall back. -/
def orElseName (v : Option (List Char)) (fallback : List Char) : List Char :=
  match v with
  | some l => if l.isEmpty then fallback else l
  | none => fallback

/-- The `cleanupReadme` pure README transformation
(`src/unnamed/part_004`, lines 194-255). -/
def readmeTransform (env readme : List Char) : List Char :=
  let pn := orElseName ((envValueL "PROJECT_NAME".data env).map stripQuotesCh) "My App".data
  let an := orElseName ((envValueL "APPLICATION_NAME".data env).map stripQuotesCh) pn
  let r1 := replaceFirstSub
    "# 🚀 NuxtShip\n\n**Skip the auth boilerplate. Ship your idea faster.**".data
    ("# ".data ++ an ++ "\n\nBuilt with NuxtShip - Authentication and infrastructure included.".data)
    readme
  let r2 := removeSection "## 🚀 Quick Start".data ["## ".data] r1
  let r3 := removeSection "## 🤝 Contributing".data ["## ".data, "---\n".data] r2
  let r4 := removeSection "## 📝 License".data ["## ".data, "---\n".data] r3
  let r5 := replaceAllSub "my-awesome-app/".data
    (collapseWs (pn.map Char.toLower) ++ "/".data) r4
  replaceFirstSub "Made with ❤️ and".data "Built with NuxtShip and powered by".data r5

/-- Working-tree state seen by the `part_004` orchestrator. -/
structure State4 where
  pkg : Option PackageJson
  envFile : Option String
  readme : Option String
  license : Bool
  scriptFile : Bool
deriving DecidableEq, Repr

/-- One observable step of a `part_004` run; the `ok` flags record whether
the step completed without a caught error. -/
inductive Step4 where
  | updatePkg (ok : Bool)
  | checkTemplate (isT : Bool)
  | cleanupCmds (ok : Bool)
  | rewriteReadme (ok : Bool)
  | removeLicense
  | scheduleSelfDelete
deriving DecidableEq, Repr

/-- The replacement `init` command written by the `part_004`
`cleanupTemplateCommands` (line 177). -/
def initRewriteCmd : String := "bun run setup:env && bun run setup:full"

/-- The `updatePackageInfo` step of `part_004` (lines 257-296) as a state step with
its success flag: a missing env file or unreadable manifest is a caught
error; a readable env without `PROJECT_NAME` is a logged no-op. -/
def runUpdatePkg (st : State4) : State4 × Bool :=
  match st.envFile with
  | none => (st, false)
  | some env =>
    match findProjectName env with
    | none => (st, true)
    | some projectName =>
      match st.pkg with
      | none => (st, false)
      | some p =>
        ({ st with pkg := some { p with name := npmName projectName, version := "0.1.0",
                                        description := none } }, true)

/-- The `isTemplateRepo` check (lines 139-160): the manifest name equals the
reserved identifier; an unreadable manifest reads as not-the-template. -/
def isTemplateRepo (pkg : Option PackageJson) : Bool :=
  match pkg with
  | some p => p.name = "nuxtship"
  | none => false

/-- The `cleanupTemplateCommands` step of `part_004` (lines 162-192): rewrite the
`init` command when present and truthy. -/
def runCleanupCmds4 (st : State4) : State4 × Bool :=
  match st.pkg with
  | none => (st, false)
  | some p =>
    ({ st with pkg := some { p with scripts :=
        (if jsTruthy p.scripts "init" then jsSet p.scripts "init" initRewriteCmd
         else p.scripts) } }, true)

/-- The `cleanupReadme` step of `part_004` (lines 194-255) as a state step: missing
env file or missing README is a caught error leaving the README alone. -/
def runReadme4 (st : State4) : State4 × Bool :=
  match st.envFile with
  | none => (st, false)
  | some env =>
    match st.readme with
    | none => (st, false)
    | some r => ({ st with readme := some (String.mk (readmeTransform env.data r.data)) }, true)

/-- The `main` entry of the `part_004` orchestrator (lines 328-347): rename the
manifest, then check the marker; in the non-template branch rewrite the
commands, the README, remove the license, and schedule self-deletion last.
The returned list is the ordered trace of the run. -/
def main4 (st : State4) : State4 × List Step4 :=
  let u := runUpdatePkg st
  if isTemplateRepo u.1.pkg then
    (u.1, [Step4.updatePkg u.2, Step4.checkTemplate true])
  else
    let c := runCleanupCmds4 u.1
    let r := runReadme4 c.1
    ({ r.1 with license := false, scriptFile := false },
     [Step4.updatePkg u.2, Step4.checkTemplate false, Step4.cleanupCmds c.2,
      Step4.rewriteReadme r.2, Step4.removeLicense, Step4.scheduleSelfDelete])

/-!
## Helper lemmas on the object operations
-/

theorem jsGet_delete_self (o : Obj) (k : String) : jsGet (jsDelete o k) k = none := by
  induction o with
  | nil => rfl
  | cons kv rest ih =>
    by_cases h : kv.1 = k <;> simp [jsDelete, jsGet, h, ih]

theorem jsGet_delete_of_ne (o : Obj) (k k2 : String) (hne : k2 ≠ k) :
    jsGet (jsDelete o k) k2 = jsGet o k2 := by
  have hk : ¬k = k2 := fun e => hne e.symm
  induction o with
  | nil => rfl
  | cons kv rest ih =>
    by_cases h : kv.1 = k
    · simp [jsDelete, jsGet, h, hk, ih]
    · by_cases h2 : kv.1 = k2 <;> simp [jsDelete, jsGet, h, h2, hne, ih]

theorem jsGet_set_self (o : Obj) (k v : String) : jsGet (jsSet o k v) k = some v := by
  induction o with
  | nil => simp [jsSet, jsGet]
  | cons kv rest ih =>
    by_cases h : kv.1 = k <;> simp [jsSet, jsGet, h, ih]

theorem jsGet_set_of_ne (o : Obj) (k v : String) (k2 : String) (hne : k2 ≠ k) :
    jsGet (jsSet o k v) k2 = jsGet o k2 := by
  have hk : ¬k = k2 := fun e => hne e.symm
  induction o with
  | nil => simp [jsSet, jsGet, hk]
  | cons kv rest ih =>
    by_cases h : kv.1 = k
    · simp [jsSet, jsGet, h, hk, ih]
    · by_cases h2 : kv.1 = k2 <;> simp [jsSet, jsGet, h, h2, hne, ih]

theorem jsTruthy_congr {o1 o2 : Obj} {k : String} (h : jsGet o1 k = jsGet o2 k) :
    jsTruthy o1 k = jsTruthy o2 k := by
  unfold jsTruthy
  rw [h]

/-!
## Helper lemmas on the removal fold
-/

theorem removeStep_get_self (o : Obj) (cmd : String) (h : jsTruthy o cmd = true) :
    jsGet (removeStep o cmd) cmd = none := by
  unfold removeStep
  cases hg : jsGet o cmd with
  | none => simp [jsTruthy, hg] at h
  | some v =>
    have hv : v ≠ "" := by simpa [jsTruthy, hg] using h
    simp [hv, jsGet_delete_self]

theorem removeStep_get_of_ne (o : Obj) (cmd cmd2 : String) (hne : cmd2 ≠ cmd) :
    jsGet (removeStep o cmd) cmd2 = jsGet o cmd2 := by
  unfold removeStep
  cases hg : jsGet o cmd with
  | none => rfl
  | some v =>
    by_cases hv : v = "" <;> simp [hv, jsGet_delete_of_ne o cmd cmd2 hne]

theorem removeStep_get_none (o : Obj) (cmd cmd2 : String) (h : jsGet o cmd2 = none) :
    jsGet (removeStep o cmd) cmd2 = none := by
  by_cases he : cmd2 = cmd
  · subst he
    unfold removeStep
    rw [h]
    exact h
  · rw [removeStep_get_of_ne o cmd cmd2 he]
    exact h

theorem foldRemove_get_none (cmds : List String) (o : Obj) (cmd : String)
    (h : jsGet o cmd = none) : jsGet (cmds.foldl removeStep o) cmd = none := by
  induction cmds generalizing o with
  | nil => simpa using h
  | cons c cs ih => exact ih (removeStep o c) (removeStep_get_none o c cmd h)

theorem foldRemove_get_mem (cmds : List String) (o : Obj) (cmd : String)
    (h1 : cmd ∈ cmds) (h2 : jsTruthy o cmd = true) :
    jsGet (cmds.foldl removeStep o) cmd = none := by
  induction cmds generalizing o with
  | nil => cases h1
  | cons c cs ih =>
    by_cases he : cmd = c
    · subst he
      exact foldRemove_get_none cs (removeStep o cmd) cmd (removeStep_get_self o cmd h2)
    · have hmem : cmd ∈ cs := by
        rcases List.mem_cons.mp h1 with h | h
        · exact absurd h he
        · exact h
      have hpres := removeStep_get_of_ne o c cmd he
      exact ih (removeStep o c) hmem ((jsTruthy_congr hpres).trans h2)

theorem foldRemove_get_of_not_mem (cmds : List String) (o : Obj) (cmd : String)
    (h : cmd ∉ cmds) : jsGet (cmds.foldl removeStep o) cmd = jsGet o cmd := by
  induction cmds generalizing o with
  | nil => rfl
  | cons c cs ih =>
    have h1 : cmd ≠ c := fun e => h (e ▸ List.mem_cons_self c cs)
    have h2 : cmd ∉ cs := fun m => h (List.mem_cons_of_mem c m)
    rw [List.foldl_cons, ih (removeStep o c) h2, removeStep_get_of_ne o c cmd h1]

/-!
## Helper lemmas on the rename fold
-/

/-- The keys touched by a rename list are pairwise distinct, and no pair
renames a key to itself. -/
def pairsSeparate (prs : List (String × String)) : Prop :=
  List.Pairwise (fun a b => a.1 ≠ b.1 ∧ a.1 ≠ b.2 ∧ a.2 ≠ b.1 ∧ a.2 ≠ b.2) prs ∧
    ∀ pr ∈ prs, pr.1 ≠ pr.2

theorem renameStep_get_of_ne (o : Obj) (pr : String × String) (k : String)
    (h1 : k ≠ pr.1) (h2 : k ≠ pr.2) : jsGet (renameStep o pr) k = jsGet o k := by
  unfold renameStep
  cases hg : jsGet o pr.1 with
  | none => rfl
  | some v =>
    by_cases hv : v = "" <;>
      simp [hv, jsGet_delete_of_ne _ pr.1 k h1, jsGet_set_of_ne o pr.2 v k h2]

theorem renameStep_get_new (o : Obj) (pr : String × String)
    (ht : jsTruthy o pr.1 = true) (hne : pr.1 ≠ pr.2) :
    jsGet (renameStep o pr) pr.2 = jsGet o pr.1 := by
  unfold renameStep
  cases hg : jsGet o pr.1 with
  | none => simp [jsTruthy, hg] at ht
  | some v =>
    have hv : v ≠ "" := by simpa [jsTruthy, hg] using ht
    have h21 : pr.2 ≠ pr.1 := fun e => hne e.symm
    simp [hv, jsGet_delete_of_ne _ pr.1 pr.2 h21, jsGet_set_self o pr.2 v]

theorem renameStep_get_old (o : Obj) (pr : String × String)
    (ht : jsTruthy o pr.1 = true) : jsGet (renameStep o pr) pr.1 = none := by
  unfold renameStep
  cases hg : jsGet o pr.1 with
  | none => simp [jsTruthy, hg] at ht
  | some v =>
    have hv : v ≠ "" := by simpa [jsTruthy, hg] using ht
    simp [hv, jsGet_delete_self]

theorem foldRename_get_untouched (prs : List (String × String)) (o : Obj) (k : String)
    (h : ∀ pr ∈ prs, k ≠ pr.1 ∧ k ≠ pr.2) :
    jsGet (prs.foldl renameStep o) k = jsGet o k := by
  induction prs generalizing o with
  | nil => rfl
  | cons q qs ih =>
    have hq := h q (List.mem_cons_self q qs)
    have hqs : ∀ pr ∈ qs, k ≠ pr.1 ∧ k ≠ pr.2 := fun pr m => h pr (List.mem_cons_of_mem q m)
    rw [List.foldl_cons, ih (renameStep o q) hqs, renameStep_get_of_ne o q k hq.1 hq.2]

theorem foldRename_spec (prs : List (String × String)) (o : Obj) (pr : String × String)
    (hmem : pr ∈ prs) (hsep : pairsSeparate prs) (ht : jsTruthy o pr.1 = true) :
    jsGet (prs.foldl renameStep o) pr.2 = jsGet o pr.1 ∧
    jsGet (prs.foldl renameStep o) pr.1 = none := by
  induction prs generalizing o with
  | nil => cases hmem
  | cons q qs ih =>
    obtain ⟨hpw, hni⟩ := hsep
    have hpw' := List.pairwise_cons.mp hpw
    rcases List.mem_cons.mp hmem with rfl | hmem'
    · have hq : pr.1 ≠ pr.2 := hni pr (List.mem_cons_self pr qs)
      have hrest2 : ∀ q' ∈ qs, pr.2 ≠ q'.1 ∧ pr.2 ≠ q'.2 := fun q' m =>
        ⟨(hpw'.1 q' m).2.2.1, (hpw'.1 q' m).2.2.2⟩
      have hrest1 : ∀ q' ∈ qs, pr.1 ≠ q'.1 ∧ pr.1 ≠ q'.2 := fun q' m =>
        ⟨(hpw'.1 q' m).1, (hpw'.1 q' m).2.1⟩
      constructor
      · rw [List.foldl_cons, foldRename_get_untouched qs (renameStep o pr) pr.2 hrest2]
        exact renameStep_get_new o pr ht hq
      · rw [List.foldl_cons, foldRename_get_untouched qs (renameStep o pr) pr.1 hrest1]
        exact renameStep_get_old o pr ht
    · have hrel := hpw'.1 pr hmem'
      have e1 : jsGet (renameStep o q) pr.1 = jsGet o pr.1 :=
        renameStep_get_of_ne o q pr.1 (fun e => hrel.1 e.symm) (fun e => hrel.2.2.1 e.symm)
      have e2 : jsGet (renameStep o q) pr.2 = jsGet o pr.2 :=
        renameStep_get_of_ne o q pr.2 (fun e => hrel.2.1 e.symm) (fun e => hrel.2.2.2 e.symm)
      have ht' : jsTruthy (renameStep o q) pr.1 = true := (jsTruthy_congr e1).trans ht
      have hsep' : pairsSeparate qs :=
        ⟨hpw'.2, fun p m => hni p (List.mem_cons_of_mem q m)⟩
      have := ih (renameStep o q) hmem' hsep' ht'
      rw [List.foldl_cons]
      exact ⟨this.1.trans e1, this.2⟩

/-!
## Remaining helper lemmas
-/

theorem updatePackageInfo_scripts (envFile : Option String) (p : PackageJson) :
    (updatePackageInfo envFile p).scripts = p.scripts := by
  cases envFile with
  | none => rfl
  | some env =>
    cases h : findProjectName env <;> simp [updatePackageInfo, h]

theorem strData_append (a b : String) : (a ++ b).data = a.data ++ b.data := by
  cases a
  cases b
  rfl

theorem scanLit_cons_of_ne (acc : List Char) (c : Char) (r : List Char) (hc : ¬c = sq) :
    scanLit acc (c :: r) = scanLit (acc ++ [c]) r := by
  conv_lhs => unfold scanLit
  simp [hc]

theorem scanLit_escape (l : List Char) :
    ∀ acc, scanLit acc (escapeQuotesL l ++ [sq]) = some (acc ++ l, []) := by
  induction l with
  | nil => intro acc; simp [escapeQuotesL, scanLit]
  | cons c cs ih =>
    intro acc
    by_cases hc : c = sq
    · subst hc
      simpa [escapeQuotesL, scanLit] using ih (acc ++ [sq])
    · have e1 : escapeQuotesL (c :: cs) = c :: escapeQuotesL cs := by
        simp [escapeQuotesL, hc]
      rw [e1, List.cons_append, scanLit_cons_of_ne acc c _ hc]
      simpa using ih (acc ++ [c])

/-!
## Shared concrete inputs for counterexamples and witnesses
-/

/-- A manifest still carrying the reserved template name. -/
def pkgT : PackageJson :=
  { name := "nuxtship", version := "1.0.0", description := some "template",
    scripts := [("init", "bun run setup:env"), ("dev", "nuxt dev")] }

/-- An environment file declaring a project name. -/
def envT : String := "PROJECT_NAME=My Cool App!"

/-- A `part_004` working tree still in template mode whose README file is
missing (so the README rewrite cannot complete). -/
def st6cx : State4 :=
  { pkg := some pkgT, envFile := some envT, readme := none,
    license := true, scriptFile := true }

/-- A `part_004` working tree of a derived project with all files present. -/
def stW : State4 :=
  { pkg := some { name := "myapp", version := "1.0.0", description := none,
                  scripts := [("init", "x")] },
    envFile := some "PROJECT_NAME=Demo App",
    readme := some "# Hi\n\nSee my-awesome-app/ for details.\n",
    license := true, scriptFile := true }

/-- A manifest containing every removal-list command, with `init` and
`containers:start` bound to the empty (falsy) string. -/
def pkgC4cx : PackageJson :=
  { name := "app", version := "1.0.0", description := none,
    scripts := [("init", ""), ("setup:env", "a"), ("setup:full", "a"),
                ("setup:certs", "a"), ("setup:init-steps", "a"),
                ("setup:containers", "a"), ("setup:database", "a"),
                ("setup:auth", "a"), ("setup:auth:provision", "a"),
                ("containers:start", "")] }

/-- A manifest containing every removal-list command and every rename-map
command with non-empty values. -/
def pkgC4w : PackageJson :=
  { name := "app", version := "1.0.0", description := none,
    scripts := [("init", "bun run x"), ("setup:env", "a"), ("setup:full", "b"),
                ("setup:certs", "c"), ("setup:init-steps", "d"),
                ("setup:containers", "e"), ("setup:database", "f"),
                ("setup:auth", "g"), ("setup:auth:provision", "h"),
                ("containers:start", "docker compose up -d"),
                ("containers:stop", "docker compose down"),
                ("containers:restart", "docker compose restart"),
                ("containers:logs", "docker compose logs -f"),
                ("containers:status", "docker compose ps"),
                ("dev", "nuxt dev")] }

/-!
## Claim theorems
-/

/-- C1 (counterexample): the current Template Cleanup Orchestrator has no
template-marker guard.  On a clean tree whose manifest is still named
`nuxtship` and whose `.env` declares `PROJECT_NAME=My Cool App!`, running
`main` rewrites the manifest (name, version, description and the command
set all change), so manifest and README are not byte-identical to their
prior state. -/
theorem template_mode_mutated_cx :
    pkgT.name = "nuxtship" ∧
    mainCur false (some envT) (some pkgT) =
      some { name := "my-cool-app", version := "0.1.0", description := none,
             scripts := [("dev", "nuxt dev")] } ∧
    mainCur false (some envT) (some pkgT) ≠ some pkgT := by
  decide

/-- C1 (amended): the orchestrator variant that implements the
template-marker guard (`src/unnamed/part_005`, `cleanupTemplate`) leaves a
manifest named `nuxtship` — and the README, which it never touches —
exactly as they were. -/
theorem template_guard_part005 (p : PackageJson) (readme : Option String)
    (h : p.name = "nuxtship") :
    run5 (some p, readme) = (some p, readme) := by
  simp [run5, cleanupTemplate5, h]

/-- Witness for `template_guard_part005` at a concrete template state. -/
theorem template_guard_part005_witness :
    run5 (some pkgT, some "# README") = (some pkgT, some "# README") :=
  template_guard_part005 pkgT (some "# README") (by decide)

/-- C2 (counterexample): a pending version-control change only suppresses
the command cleanup; `updatePackageInfo` still runs and rewrites the
manifest name, version and description, so mutation does occur. -/
theorem dirty_guard_mutated_cx :
    mainCur true (some envT) (some pkgT) =
      some { name := "my-cool-app", version := "0.1.0", description := none,
             scripts := [("init", "bun run setup:env"), ("dev", "nuxt dev")] } ∧
    mainCur true (some envT) (some pkgT) ≠ some pkgT := by
  decide

/-- C2 (amended): when the version-control status query reports pending
changes, the `scripts` mapping is untouched by the run — no command is
removed or renamed — although the name, version and description fields may
still be rewritten from the environment file. -/
theorem dirty_guard_scripts_unchanged (p : PackageJson) (envFile : Option String) :
    (mainCur true envFile (some p)).map PackageJson.scripts = some p.scripts := by
  simp [mainCur, updatePackageInfo_scripts]

/-- C4 (counterexample): the removal and rename steps test truthiness, so
a command present with an empty string value is neither removed nor
renamed: a manifest containing every command of the removal list (with
`init` mapped to the empty string) still has `init` after cleanup, and a
`containers:start` mapped to the empty string survives unrenamed. -/
theorem cleanup_commands_cx :
    (commandsToRemove.all fun c => (jsGet pkgC4cx.scripts c).isSome) = true ∧
    (jsGet (cleanupTemplateCommandsCur pkgC4cx).scripts "init").isSome = true ∧
    jsGet (cleanupTemplateCommandsCur pkgC4cx).scripts "infra:start" = none ∧
    (jsGet (cleanupTemplateCommandsCur pkgC4cx).scripts "containers:start").isSome = true := by
  decide

set_option maxHeartbeats 1000000 in
/-- C4 (amended): for a manifest whose scripts map holds every command of
the removal list with a non-empty (truthy) value, cleanup removes them
all; and every rename-map key held with a non-empty value is afterwards
gone, with exactly the new key carrying the original command value. -/
theorem cleanup_commands_spec (p : PackageJson)
    (hrem : ∀ cmd ∈ commandsToRemove, jsTruthy p.scripts cmd = true) :
    (∀ cmd ∈ commandsToRemove, jsGet (cleanupTemplateCommandsCur p).scripts cmd = none) ∧
    (∀ pr ∈ renamePairs, jsTruthy p.scripts pr.1 = true →
      jsGet (cleanupTemplateCommandsCur p).scripts pr.1 = none ∧
      jsGet (cleanupTemplateCommandsCur p).scripts pr.2 = jsGet p.scripts pr.1) := by
  have hdisj : ∀ c ∈ commandsToRemove, ∀ pr ∈ renamePairs, c ≠ pr.1 ∧ c ≠ pr.2 := by decide
  have holdnot : ∀ pr ∈ renamePairs, pr.1 ∉ commandsToRemove := by decide
  have hsep : pairsSeparate renamePairs := by
    constructor
    · decide
    · decide
  have hcc : (cleanupTemplateCommandsCur p).scripts
      = renamePairs.foldl renameStep (commandsToRemove.foldl removeStep p.scripts) := by
    simp [cleanupTemplateCommandsCur]
  constructor
  · intro cmd hcmd
    have h1 : jsGet (commandsToRemove.foldl removeStep p.scripts) cmd = none :=
      foldRemove_get_mem commandsToRemove p.scripts cmd hcmd (hrem cmd hcmd)
    rw [hcc, foldRename_get_untouched renamePairs _ cmd (hdisj cmd hcmd)]
    exact h1
  · intro pr hpr ht
    have hu : jsGet (commandsToRemove.foldl removeStep p.scripts) pr.1 = jsGet p.scripts pr.1 :=
      foldRemove_get_of_not_mem commandsToRemove p.scripts pr.1 (holdnot pr hpr)
    have ht' : jsTruthy (commandsToRemove.foldl removeStep p.scripts) pr.1 = true :=
      (jsTruthy_congr hu).trans ht
    have hspec := foldRename_spec renamePairs (commandsToRemove.foldl removeStep p.scripts)
      pr hpr hsep ht'
    rw [hcc]
    exact ⟨hspec.2, hspec.1.trans hu⟩

/-- Witness for `cleanup_commands_spec` at a concrete full manifest. -/
theorem cleanup_commands_spec_witness :
    jsGet (cleanupTemplateCommandsCur pkgC4w).scripts "init" = none ∧
    jsGet (cleanupTemplateCommandsCur pkgC4w).scripts "containers:start" = none ∧
    jsGet (cleanupTemplateCommandsCur pkgC4w).scripts "infra:start" =
      jsGet pkgC4w.scripts "containers:start" := by
  have h := cleanup_commands_spec pkgC4w (by decide)
  have h2 := h.2 ("containers:start", "infra:start") (by decide) (by decide)
  exact ⟨h.1 "init" (by decide), h2.1, h2.2⟩

/-- C5: the derived manifest name contains only lowercase letters, digits
and hyphens — every other character of the lower-cased,
whitespace-collapsed project name is stripped — and the project name
`"My Cool App!"` derives exactly `my-cool-app`. -/
theorem npm_name_derivation (s : String) :
    npmName "My Cool App!" = "my-cool-app" ∧
    ∀ c ∈ (npmName s).data, ('a' ≤ c ∧ c ≤ 'z') ∨ ('0' ≤ c ∧ c ≤ '9') ∨ c = '-' := by
  refine ⟨by decide, ?_⟩
  intro c hc
  have h : allowedChar c = true := (List.mem_filter.mp hc).2
  simpa [allowedChar, Bool.or_eq_true, Bool.and_eq_true, decide_eq_true_eq, or_assoc] using h

/-- Witness for `npm_name_derivation` at a concrete character of a
concrete derived name. -/
theorem npm_name_derivation_witness :
    'b' ∈ (npmName "B c").data ∧
    (('a' ≤ 'b' ∧ 'b' ≤ 'z') ∨ ('0' ≤ 'b' ∧ 'b' ≤ '9') ∨ 'b' = '-') :=
  ⟨by decide, (npm_name_derivation "B c").2 'b' (by decide)⟩

/-- C6 (counterexample): the `part_004` orchestrator renames the manifest
before checking the template marker, so on a tree whose manifest is still
named `nuxtship` (with a `PROJECT_NAME` in `.env`) the check misses, and
self-deletion is scheduled even though the run started in template mode
and even though the README rewrite failed (the README file is absent). -/
theorem self_delete_cx :
    st6cx.pkg.map PackageJson.name = some "nuxtship" ∧
    Step4.scheduleSelfDelete ∈ (main4 st6cx).2 ∧
    Step4.rewriteReadme false ∈ (main4 st6cx).2 := by
  decide

/-- C6 (amended): whenever self-deletion is scheduled, it is the final
step of the run, coming after the command-cleanup, README-rewrite and
license-removal steps have been attempted (successfully or not), and only
in the branch where the template check — performed after the manifest
rename — reported non-template mode. -/
theorem self_delete_order (st : State4)
    (h : Step4.scheduleSelfDelete ∈ (main4 st).2) :
    ∃ okU okC okR, (main4 st).2 =
      [Step4.updatePkg okU, Step4.checkTemplate false, Step4.cleanupCmds okC,
       Step4.rewriteReadme okR, Step4.removeLicense, Step4.scheduleSelfDelete] := by
  by_cases hT : isTemplateRepo (runUpdatePkg st).1.pkg
  · exfalso
    simp [main4, hT] at h
  · exact ⟨(runUpdatePkg st).2, (runCleanupCmds4 (runUpdatePkg st).1).2,
      (runReadme4 (runCleanupCmds4 (runUpdatePkg st).1).1).2, by simp [main4, hT]⟩

set_option maxRecDepth 8000 in
/-- Witness for `self_delete_order` at a concrete derived-project state. -/
theorem self_delete_order_witness :
    ∃ okU okC okR, (main4 stW).2 =
      [Step4.updatePkg okU, Step4.checkTemplate false, Step4.cleanupCmds okC,
       Step4.rewriteReadme okR, Step4.removeLicense, Step4.scheduleSelfDelete] :=
  self_delete_order stW (by decide)

/-- C7: if the environment file already exists, the Environment
Initializer returns immediately with exit code 0 and an unchanged
filesystem; and a second run right after any first run leaves the whole
state of the first run intact, so an existing environment file is never
overwritten. -/
theorem env_init_idempotent (fs : EnvFs) :
    (∀ c, fs.envFile = some c → setupEnvMain fs = (fs, 0)) ∧
    (setupEnvMain (setupEnvMain fs).1).1 = (setupEnvMain fs).1 := by
  obtain ⟨e, x⟩ := fs
  cases e <;> cases x <;> simp [setupEnvMain]

/-- Witness for `env_init_idempotent` at a concrete filesystem. -/
theorem env_init_idempotent_witness :
    setupEnvMain ⟨some "K=V", none⟩ = (⟨some "K=V", none⟩, 0) :=
  (env_init_idempotent ⟨some "K=V", none⟩).1 "K=V" rfl

/-- C8: the Environment Initializer exits 0 exactly when the environment
file already existed; missing both files exits non-zero creating nothing
(fatal setup error); a successful copy from the template exits non-zero
with the file created (deliberate hard stop). -/
theorem env_init_exit_codes (fs : EnvFs) :
    ((setupEnvMain fs).2 = 0 ↔ fs.envFile.isSome = true) ∧
    (fs.envFile = none → fs.envExample = none →
      (setupEnvMain fs).2 = 1 ∧ (setupEnvMain fs).1.envFile = none) ∧
    (∀ c, fs.envFile = none → fs.envExample = some c →
      (setupEnvMain fs).2 = 1 ∧ (setupEnvMain fs).1.envFile = some c) := by
  obtain ⟨e, x⟩ := fs
  cases e <;> cases x <;> simp [setupEnvMain]

/-- Witness for `env_init_exit_codes` at a concrete filesystem holding
only the template file. -/
theorem env_init_exit_codes_witness :
    (setupEnvMain ⟨none, some "T=1"⟩).2 = 1 ∧
    (setupEnvMain ⟨none, some "T=1"⟩).1.envFile = some "T=1" :=
  (env_init_exit_codes ⟨none, some "T=1"⟩).2.2 "T=1" rfl rfl

/-- C9: an API-prefixed request with no valid session passes through the
Auth-Context Bridge without raising, with no identity stored on the
context and no database-session command issued. -/
theorem auth_bridge_unauthenticated (ev : AuthEvent) (u : String)
    (h1 : ev.url = some u) (h2 : startsWithApi u = true) (h3 : ev.session = none) :
    (authContextMiddleware ev).contextUserId = none ∧
    (authContextMiddleware ev).contextUser = none ∧
    (authContextMiddleware ev).dbCommands = [] ∧
    (authContextMiddleware ev).raised = false := by
  simp [authContextMiddleware, h1, h2, h3, passResult]

/-- Witness for `auth_bridge_unauthenticated` at a concrete sessionless
API request. -/
theorem auth_bridge_unauthenticated_witness :
    (authContextMiddleware ⟨some "/api/users", none⟩).contextUserId = none ∧
    (authContextMiddleware ⟨some "/api/users", none⟩).contextUser = none ∧
    (authContextMiddleware ⟨some "/api/users", none⟩).dbCommands = [] ∧
    (authContextMiddleware ⟨some "/api/users", none⟩).raised = false :=
  auth_bridge_unauthenticated ⟨some "/api/users", none⟩ "/api/users" rfl (by decide) rfl

/-- C10: the raw `SET SESSION` statement is the fixed prefix followed by
one single-quoted SQL string literal; scanning that literal under SQL
rules (a doubled quote is an escaped quote) consumes the whole remainder
of the statement and yields exactly the original subject identifier, so no
quote inside the identifier can terminate the literal early. -/
theorem sql_quote_escaping (uid : String) :
    (setSessionSql uid).data =
      "SET SESSION auth.user_id = ".data ++ (sq :: (escapeQuotesL uid.data ++ [sq])) ∧
    parseSqlLit (sq :: (escapeQuotesL uid.data ++ [sq])) = some (uid.data, []) := by
  constructor
  · simp [setSessionSql, escapeQuotes, strData_append]
  · simpa [parseSqlLit] using scanLit_escape uid.data []

end NuxtShip

